import Mathlib

/-!
Shallow embedding of the incremental-build decision engine of UNO-SOFT/yb
(package yb, context-based variant): timestamp probing (MTime), generator
staleness detection (QtcIsOld), build necessity (GoShouldBuild), install
orchestration (GoInstall) and the install-state registry
(Installed / ResetInstalled).

Filesystem access is modelled by an explicit stat oracle, the WalkDir
traversal of a target directory by the list of callback invocations it
performs (in deterministic traversal order), context cancellation by the
index of the callback invocation at which ctx.Err() becomes non-nil, and
subprocess outcomes by booleans.  Subprocess invocations are recorded in a
trace so that theorems can speak about which external commands ran.
-/

namespace Yb

/-- A filesystem abstraction: `stat p` is the modification time of path `p`
in Unix milliseconds (`os.Stat(p).ModTime().UnixMilli()`), or `none` when the
stat fails (file absent, permission error, ...). -/
structure FS where
  stat : String → Option Int

/-- Loop body of `MTime` (yb.go): a stat failure is skipped silently,
otherwise the running maximum is updated. -/
def mtimeStep (fs : FS) (maxTime : Int) (fn : String) : Int :=
  match fs.stat fn with
  | none => maxTime
  | some i => if i > maxTime then i else maxTime

/-- `MTime(paths...)` of yb.go: the maximum `ModTime().UnixMilli()` over the
paths that stat successfully, folded from the initial value 0 (which is
therefore also the "no timestamp" sentinel). -/
def MTime (fs : FS) (paths : List String) : Int :=
  paths.foldl (mtimeStep fs) 0

/-- `strings.HasSuffix(s, suf)`. -/
def hasSuffix (s suf : String) : Bool :=
  suf.data.isSuffixOf s.data

/-- `filepath.Join(dir, name)` on already-clean relative segments. -/
def pathJoin (dir name : String) : String :=
  dir ++ "/" ++ name

/-- One entry of the `filepath.WalkDir` traversal of a target directory, in
traversal order: its path, whether it is a regular file, whether WalkDir
passed a non-nil error for it, and the result of `di.Info()`
(`none` = stat failure, `some t` = its ModTime().UnixMilli()). -/
structure WalkEntry where
  path : String
  isRegular : Bool
  walkErr : Bool
  info : Option Int
deriving DecidableEq

/-- The errors `QtcIsOld` can return: the context cancellation error, or the
`di.Info()` stat failure on a generator-source file. -/
inductive WalkError where
  | cancelled
  | statFailed (path : String)
deriving DecidableEq

/-- Cancellation model: `some k` means `ctx.Err()` becomes (and stays)
non-nil at the k-th callback invocation of the walk; `none` means the
context is never cancelled.  `cancelNow` asks whether it is non-nil now. -/
def cancelNow : Option Nat → Bool
  | some 0 => true
  | _ => false

/-- Advance the cancellation clock by one callback invocation. -/
def cancelTick : Option Nat → Option Nat
  | none => none
  | some 0 => some 0
  | some (k+1) => some k

/-- The WalkDir callback loop of `QtcIsOld` (yb.go): each invocation checks
`ctx.Err()` first and aborts with it; an entry WalkDir reported an error for
is logged and skipped; once `old` is set the walk stops via `fs.SkipAll`
(which WalkDir turns into a nil error); for a regular `*.qtpl` file, a
`di.Info()` failure sets `old` and aborts the walk with that error, and a
source strictly newer than its companion `path+".go"` sets `old` and stops
via `fs.SkipAll`.  Returns the pair `(old, err)` that `QtcIsOld` returns. -/
def qtcWalk (fs : FS) : List WalkEntry → Option Nat → Bool → Bool × Option WalkError
  | [], _, old => (old, none)
  | e :: es, c, old =>
    if cancelNow c then (old, some WalkError.cancelled)
    else if e.walkErr then qtcWalk fs es (cancelTick c) old
    else if old then (old, none)
    else if e.isRegular && hasSuffix e.path ".qtpl" then
      match e.info with
      | none => (true, some (WalkError.statFailed e.path))
      | some t =>
        if t > MTime fs [e.path ++ ".go"] then (true, none)
        else qtcWalk fs es (cancelTick c) false
    else qtcWalk fs es (cancelTick c) old

/-- `QtcIsOld(ctx, root)` of yb.go, over the target's traversal entries. -/
def QtcIsOld (entries : List WalkEntry) (fs : FS) (cancelAt : Option Nat) :
    Bool × Option WalkError :=
  qtcWalk fs entries cancelAt false

/-- The number of callback invocations the walk performs when the context is
never cancelled (mirrors the branch structure of `qtcWalk`). -/
def visitCount (fs : FS) : List WalkEntry → Bool → Nat
  | [], _ => 0
  | e :: es, old =>
    if e.walkErr then visitCount fs es old + 1
    else if old then 1
    else if e.isRegular && hasSuffix e.path ".qtpl" then
      match e.info with
      | none => 1
      | some t =>
        if t > MTime fs [e.path ++ ".go"] then 1
        else visitCount fs es false + 1
    else visitCount fs es old + 1

/-- Staleness of a single traversal entry: a regular `*.qtpl` file whose own
modification time strictly exceeds its companion `*.qtpl.go` time. -/
def entryStale (fs : FS) (e : WalkEntry) : Bool :=
  e.isRegular && hasSuffix e.path ".qtpl" &&
    match e.info with
    | none => false
    | some t => decide (t > MTime fs [e.path ++ ".go"])

/-- A build target: its traversal entries (the deterministic walk of its
directory), the filesystem, the install root (`GoBin`), the result of the
package-kind query (`build.ImportDir("./"+name).IsCommand()`, consumed as a
black-box boolean), and the `filepath.Glob(name + "/*.go")` result. -/
structure Target where
  entries : List WalkEntry
  fs : FS
  goBin : String
  isCommand : Bool
  goFiles : List String

/-- `GoShouldBuild(ctx, name)` of yb.go (context-based variant): staleness
check first (error or stale short-circuits to true); a missing installed
artifact forces a build only for a command; an artifact older than go.mod
forces a build; the final branch computes the newest `*.go` source time but
(as in the source) only logs "*.go is newer than dest" and returns false. -/
def GoShouldBuild (t : Target) (name : String) (cancelAt : Option Nat) : Bool :=
  match QtcIsOld t.entries t.fs cancelAt with
  | (_, some _) => true
  | (old, none) =>
    if old then true
    else
      let destTime := MTime t.fs [pathJoin t.goBin name]
      if decide (destTime = 0) && t.isCommand then true
      else
        let goModTime := MTime t.fs ["go.mod"]
        if decide (destTime ≠ 0) && decide (destTime < goModTime) then true
        else
          let _maxTime := MTime t.fs t.goFiles
          false

/-- The errors the context-based `GoInstall` of yb.go can return: the walk
error from `QtcIsOld`, a non-zero exit of `qtc`, or a non-zero exit of
`go install`. -/
inductive InstallErr where
  | walk (e : WalkError)
  | qtcFailed
  | goInstallFailed
deriving DecidableEq

/-- The external commands `GoInstall` can run: `qtc` with the target
directory as working directory, and `go install ... ./name`. -/
inductive Cmd where
  | runQtc (dir : String)
  | runGoInstall (pkg : String)
deriving DecidableEq

/-- Outcomes of the two subprocesses `GoInstall` may run. -/
structure ExecEnv where
  qtcOk : Bool
  goInstallOk : Bool

/-- `installed[name] = struct{}{}`: idempotent insertion into the set of
installed names (a Go map keyed by name). -/
def insertName (s : List String) (x : String) : List String :=
  if x ∈ s then s else x :: s

/-- Result of the context-based `GoInstall` of yb.go: the changed flag and
error it returns, together with the subprocess invocations performed and the
updated installed set (model-level observables). -/
structure InstallResult where
  changed : Bool
  err : Option InstallErr
  trace : List Cmd
  installed : List String
deriving DecidableEq

/-- Second half of `GoInstall` (yb.go): if `force` or `GoShouldBuild`, run
`go install`; on failure return the error with changed=true; on success
record the name in the installed set and return changed=true; otherwise
return changed=false with no error. -/
def goInstallStep (t : Target) (ex : ExecEnv) (s : List String) (name : String)
    (force : Bool) (cancelAt : Option Nat) (tr : List Cmd) : InstallResult :=
  if force || GoShouldBuild t name cancelAt then
    if ex.goInstallOk then
      { changed := true, err := none, trace := tr ++ [Cmd.runGoInstall name],
        installed := insertName s name }
    else
      { changed := true, err := some InstallErr.goInstallFailed,
        trace := tr ++ [Cmd.runGoInstall name], installed := s }
  else { changed := false, err := none, trace := tr, installed := s }

/-- `GoInstall(ctx, name, force)` of yb.go (context-based variant): a walk
error from `QtcIsOld` is returned immediately with changed=true; if stale or
forced, `qtc` is run in the target directory and a non-zero exit is returned
immediately with changed=true; then the compile step (`goInstallStep`).
The model keeps the filesystem oracle fixed across the call (the effect of
`qtc` on disk is not modelled). -/
def GoInstall (t : Target) (ex : ExecEnv) (s : List String) (name : String)
    (force : Bool) (cancelAt : Option Nat) : InstallResult :=
  match QtcIsOld t.entries t.fs cancelAt with
  | (_, some e) =>
    { changed := true, err := some (InstallErr.walk e), trace := [], installed := s }
  | (old, none) =>
    if old || force then
      if ex.qtcOk then goInstallStep t ex s name force cancelAt [Cmd.runQtc name]
      else { changed := true, err := some InstallErr.qtcFailed,
             trace := [Cmd.runQtc name], installed := s }
    else goInstallStep t ex s name force cancelAt []

/-- `Installed()` of yb.go: a snapshot of the installed set. -/
def Installed (s : List String) : List String := s

/-- `ResetInstalled()` of yb.go: the emptied installed set. -/
def ResetInstalled : List String := []

/-- The operations that touch the install-state registry in the source: the
successful-install insertion performed by `GoInstall`, and `ResetInstalled`. -/
inductive RegistryOp where
  | record (name : String)
  | reset
deriving DecidableEq

/-- Apply one registry operation. -/
def applyOp (s : List String) : RegistryOp → List String
  | RegistryOp.record n => insertName s n
  | RegistryOp.reset => ResetInstalled

/-- Apply a sequence of registry operations. -/
def applyOps (s : List String) (ops : List RegistryOp) : List String :=
  ops.foldl applyOp s

/-! ### Concrete inputs used by the closed theorems and witnesses -/

/-- A filesystem with no files at all. -/
def fsEmpty : FS := ⟨fun _ => none⟩

/-- A command target with no generator files and no installed artifact. -/
def tCmd : Target :=
  { entries := [], fs := fsEmpty, goBin := "bin", isCommand := true, goFiles := [] }

/-- Filesystem for the C1 failing input: installed artifact `bin/t` at 5 ms,
`go.mod` at 3 ms, single source `t/a.go` at 10 ms. -/
def fsC1 : FS :=
  ⟨fun p =>
    if p = "bin/t" then some 5
    else if p = "go.mod" then some 3
    else if p = "t/a.go" then some 10
    else none⟩

/-- The C1 failing target: no generator files, artifact present and newer
than go.mod, one source file newer than the artifact. -/
def tC1 : Target :=
  { entries := [], fs := fsC1, goBin := "bin", isCommand := false, goFiles := ["t/a.go"] }

/-- A regular `.templ` generator-source file with modification time 100 ms. -/
def templEntry : WalkEntry :=
  { path := "t/a.templ", isRegular := true, walkErr := false, info := some 100 }

/-- Filesystem in which the generated companion of `t/a.templ` is stale
(generated output at 0 ms, far older than the 100 ms source). -/
def fsTempl : FS := ⟨fun p => if p = "t/a.templ.go" then some 0 else none⟩

/-- A regular `.qtpl` generator-source file with modification time 100 ms. -/
def qtplEntry : WalkEntry :=
  { path := "t/x.qtpl", isRegular := true, walkErr := false, info := some 1000 }

/-- Filesystem in which `t/x.qtpl.go` (1 ms) is older than its source. -/
def fsQtpl : FS := ⟨fun p => if p = "t/x.qtpl.go" then some 1 else none⟩

/-- A target whose only entry is a stale `.qtpl` source. -/
def tStale : Target :=
  { entries := [qtplEntry], fs := fsQtpl, goBin := "bin", isCommand := true, goFiles := [] }

/-- Subprocess environment in which `qtc` is not resolvable (its invocation
fails) while `go install` would succeed. -/
def exNoQtc : ExecEnv := { qtcOk := false, goInstallOk := true }

/-- Subprocess environment in which both subprocesses succeed. -/
def exOk : ExecEnv := { qtcOk := true, goInstallOk := true }

/-- A non-stale `.qtpl` entry: source at 1 ms, companion output at 100 ms. -/
def freshQtplEntry : WalkEntry :=
  { path := "t/x.qtpl", isRegular := true, walkErr := false, info := some 1 }

/-- Filesystem in which `t/x.qtpl.go` (100 ms) is newer than its source. -/
def fsFresh : FS := ⟨fun p => if p = "t/x.qtpl.go" then some 100 else none⟩

/-- A target whose only entry is an up-to-date `.qtpl` source. -/
def tFresh : Target :=
  { entries := [freshQtplEntry], fs := fsFresh, goBin := "bin", isCommand := true, goFiles := [] }

/-- A `.qtpl` entry whose `di.Info()` call fails. -/
def statErrEntry : WalkEntry :=
  { path := "t/x.qtpl", isRegular := true, walkErr := false, info := none }

/-- A target whose staleness check fails with a stat error. -/
def tStatErr : Target :=
  { entries := [statErrEntry], fs := fsEmpty, goBin := "bin", isCommand := true, goFiles := [] }

/-- Filesystem with a single file `a` dated 1 ms before the Unix epoch. -/
def fsNeg : FS := ⟨fun p => if p = "a" then some (-1) else none⟩

/-- Filesystem with a single file `b` at 7 ms. -/
def fsPos : FS := ⟨fun p => if p = "b" then some 7 else none⟩

end Yb

namespace Yb

/-! ### Helper lemmas -/

theorem cancelNow_none : cancelNow none = false := rfl

theorem cancelTick_none : cancelTick none = none := rfl

/-- Folding the `MTime` loop over paths none of which stat leaves the
accumulator unchanged. -/
theorem foldl_mtimeStep_missing (fs : FS) :
    ∀ (paths : List String) (a : Int),
      (∀ q ∈ paths, fs.stat q = none) → paths.foldl (mtimeStep fs) a = a := by
  intro paths
  induction paths with
  | nil => intro a _; rfl
  | cons p ps ih =>
    intro a h
    have hp : fs.stat p = none := h p (List.mem_cons_self p ps)
    have hstep : mtimeStep fs a p = a := by simp [mtimeStep, hp]
    rw [List.foldl_cons, hstep]
    exact ih a (fun q hq => h q (List.mem_cons_of_mem p hq))

/-- Folding the `MTime` loop when a single path `p` stats, with value
`T ≥ 0`, from an accumulator that is either 0 or already `T`. -/
theorem foldl_mtimeStep_single (fs : FS) (p : String) (T : Int) (hT : 0 ≤ T)
    (hstat : fs.stat p = some T) :
    ∀ (paths : List String) (a : Int), a = 0 ∨ a = T →
      (∀ q ∈ paths, q ≠ p → fs.stat q = none) →
      paths.foldl (mtimeStep fs) a = (if p ∈ paths then T else a) := by
  intro paths
  induction paths with
  | nil => intro a _ _; simp
  | cons q qs ih =>
    intro a ha hothers
    by_cases hq : q = p
    · subst hq
      have hstep : mtimeStep fs a q = T := by
        rcases ha with h0 | hT2
        · subst h0
          by_cases hpos : (0 : Int) < T
          · simp [mtimeStep, hstat, hpos]
          · have : T = 0 := le_antisymm (not_lt.mp hpos) hT
            simp [mtimeStep, hstat, this]
        · subst hT2
          simp [mtimeStep, hstat]
      rw [List.foldl_cons, hstep]
      rw [ih T (Or.inr rfl) (fun r hr hrp => hothers r (List.mem_cons_of_mem q hr) hrp)]
      by_cases hmem : q ∈ qs <;> simp [hmem]
    · have hstep : mtimeStep fs a q = a := by
        simp [mtimeStep, hothers q (List.mem_cons_self q qs) hq]
      rw [List.foldl_cons, hstep]
      rw [ih a ha (fun r hr hrp => hothers r (List.mem_cons_of_mem q hr) hrp)]
      have hpq : p ∈ q :: qs ↔ p ∈ qs := by
        constructor
        · intro hmem
          rcases List.mem_cons.mp hmem with h1 | h1
          · exact absurd h1.symm hq
          · exact h1
        · exact List.mem_cons_of_mem q
      by_cases hmem : p ∈ qs
      · simp [hmem, hpq.mpr hmem]
      · have hno : p ∉ q :: qs := fun hx => hmem (hpq.mp hx)
        simp [hmem, hno]

/-- On a traversal with no WalkDir errors and no `di.Info()` failures, the
uncancelled walk computes exactly "some entry is stale", with a nil error. -/
theorem qtcWalk_clean (fs : FS) :
    ∀ (entries : List WalkEntry),
      (∀ e ∈ entries, e.walkErr = false ∧ e.info.isSome = true) →
      qtcWalk fs entries none false = (entries.any (entryStale fs), none) := by
  intro entries
  induction entries with
  | nil => intro _; rfl
  | cons e es ih =>
    intro h
    obtain ⟨h1, h2⟩ := h e (List.mem_cons_self e es)
    have ihes := ih (fun x hx => h x (List.mem_cons_of_mem e hx))
    obtain ⟨t, ht⟩ := Option.isSome_iff_exists.mp h2
    have hstale : entryStale fs e =
        ((e.isRegular && hasSuffix e.path ".qtpl") &&
          (match e.info with
           | none => false
           | some u => decide (u > MTime fs [e.path ++ ".go"]))) := rfl
    by_cases hr : (e.isRegular && hasSuffix e.path ".qtpl") = true
    · by_cases hst : t > MTime fs [e.path ++ ".go"]
      · have hs : entryStale fs e = true := by
          rw [hstale, hr, ht]
          simp [hst]
        simp [qtcWalk, cancelNow_none, cancelTick_none, h1, hr, ht, hst, hs]
      · have hs : entryStale fs e = false := by
          rw [hstale, ht]
          simp [hst]
        simp [qtcWalk, cancelNow_none, cancelTick_none, h1, hr, ht, hst, hs, ihes]
    · have hs : entryStale fs e = false := by
        rw [hstale]
        simp only [Bool.not_eq_true] at hr
        rw [hr]
        simp
      simp [qtcWalk, cancelNow_none, cancelTick_none, h1, hr, hs, ihes]

/-- If the cancellation clock fires strictly before the walk would end, the
walk returns the cancellation error. -/
theorem qtcWalk_cancelled (fs : FS) :
    ∀ (entries : List WalkEntry) (k : Nat) (old : Bool),
      k < visitCount fs entries old →
      (qtcWalk fs entries (some k) old).2 = some WalkError.cancelled := by
  intro entries
  induction entries with
  | nil => intro k old h; simp [visitCount] at h
  | cons e es ih =>
    intro k old h
    match k with
    | 0 => simp [qtcWalk, cancelNow]
    | Nat.succ k2 =>
      have hc : cancelNow (some (k2 + 1)) = false := rfl
      have htick : cancelTick (some (k2 + 1)) = some k2 := rfl
      by_cases hw : e.walkErr = true
      · simp only [visitCount, hw, if_true] at h
        have := ih k2 old (by omega)
        simp [qtcWalk, hc, htick, hw, this]
      · simp only [Bool.not_eq_true] at hw
        by_cases ho : old = true
        · simp [visitCount, hw, ho] at h
        · simp only [Bool.not_eq_true] at ho
          subst ho
          by_cases hr : (e.isRegular && hasSuffix e.path ".qtpl") = true
          · match he : e.info with
            | none => simp [visitCount, hw, hr, he] at h
            | some t =>
              by_cases hst : t > MTime fs [e.path ++ ".go"]
              · simp [visitCount, hw, hr, he, hst] at h
              · simp only [visitCount, hw, hr, he, hst, Bool.false_eq_true,
                  if_false, if_true] at h
                have := ih k2 false (by omega)
                simp [qtcWalk, hc, htick, hw, hr, he, hst, this]
          · simp only [visitCount, hw, hr, Bool.false_eq_true, if_false] at h
            have := ih k2 false (by omega)
            simp [qtcWalk, hc, htick, hw, hr, this]

/-- Membership in the trace is preserved by the compile step. -/
theorem mem_trace_goInstallStep (t : Target) (ex : ExecEnv) (s : List String)
    (name : String) (force : Bool) (cancelAt : Option Nat) (tr : List Cmd)
    (c : Cmd) (hc : c ∈ tr) :
    c ∈ (goInstallStep t ex s name force cancelAt tr).trace := by
  unfold goInstallStep
  by_cases h1 : (force || GoShouldBuild t name cancelAt) = true
  · by_cases h2 : ex.goInstallOk = true <;>
      simp [h1, h2, List.mem_append, hc]
  · simp only [Bool.not_eq_true] at h1
    simp [h1, hc]

/-- Membership in the registry survives any operation other than reset. -/
theorem mem_applyOps (x : String) :
    ∀ (ops : List RegistryOp) (s : List String),
      x ∈ s → RegistryOp.reset ∉ ops → x ∈ applyOps s ops := by
  intro ops
  induction ops with
  | nil => intro s hx _; exact hx
  | cons op rest ih =>
    intro s hx hops
    match op with
    | RegistryOp.reset => exact absurd (List.mem_cons_self _ _) hops
    | RegistryOp.record n =>
      have hmem : x ∈ insertName s n := by
        unfold insertName
        by_cases hn : n ∈ s
        · simp [hn, hx]
        · simp [hn, List.mem_cons, hx]
      exact ih (insertName s n) hmem (fun hmem2 => hops (List.mem_cons_of_mem _ hmem2))

/-- A walk over entries none of which carries the legacy generator suffix
never reports staleness and never errors (absent cancellation). -/
theorem qtcWalk_non_qtpl (fs : FS) :
    ∀ (entries : List WalkEntry),
      (∀ e ∈ entries, hasSuffix e.path ".qtpl" = false) →
      qtcWalk fs entries none false = (false, none) := by
  intro entries
  induction entries with
  | nil => intro _; rfl
  | cons e es ih =>
    intro h
    have he := h e (List.mem_cons_self e es)
    have ihes := ih (fun x hx => h x (List.mem_cons_of_mem e hx))
    by_cases hw : e.walkErr = true
    · simp [qtcWalk, cancelNow_none, cancelTick_none, hw, ihes]
    · simp only [Bool.not_eq_true] at hw
      simp [qtcWalk, cancelNow_none, cancelTick_none, hw, he, ihes]

/-- Every branch of `GoInstall` either reports a change or reports no
error. -/
theorem goInstall_changed_or_no_err (t : Target) (ex : ExecEnv) (s : List String)
    (name : String) (force : Bool) (cancelAt : Option Nat) :
    (GoInstall t ex s name force cancelAt).changed = true ∨
    (GoInstall t ex s name force cancelAt).err = none := by
  unfold GoInstall goInstallStep
  split
  · left
    rfl
  · split
    · split
      · split
        · split
          · right
            rfl
          · left
            rfl
        · right
          rfl
      · left
        rfl
    · split
      · split
        · right
          rfl
        · left
          rfl
      · right
        rfl

/-! ### Claim theorems -/

/-- Claim C1 (code bug, shown at a concrete input): target `tC1` has no
generator staleness, its installed artifact `bin/t` (5 ms) exists and is not
older than `go.mod` (3 ms), and its only source `t/a.go` (10 ms) is newer
than the installed artifact, yet `GoShouldBuild` returns false: the final
source-versus-artifact branch of the source only logs "*.go is newer than
dest" and falls through to `return false`. -/
theorem goShouldBuild_ignores_newer_sources :
    QtcIsOld tC1.entries tC1.fs none = (false, none) ∧
    MTime tC1.fs [pathJoin tC1.goBin "t"] = 5 ∧
    MTime tC1.fs ["go.mod"] = 3 ∧
    MTime tC1.fs tC1.goFiles = 10 ∧
    GoShouldBuild tC1 "t" none = false := by decide

/-- Claim C2 (counterexample to the stated claim): the only entry of the
target is a regular `.templ` generator-source file strictly newer (100 ms)
than its companion generated output (0 ms), yet the staleness check reports
no staleness and no error: the code recognizes only the `.qtpl` suffix. -/
theorem templ_stale_not_reported :
    templEntry.info = some 100 ∧
    MTime fsTempl [templEntry.path ++ ".go"] = 0 ∧
    hasSuffix templEntry.path ".templ" = true ∧
    hasSuffix templEntry.path ".qtpl" = false ∧
    QtcIsOld [templEntry] fsTempl none = (false, none) := by decide

/-- Claim C2 (amended): the generator-staleness check recognizes only the
legacy `.qtpl` kind; over a traversal containing no `.qtpl` file at all
(in particular one containing only `.templ` generator sources, stale or
not), `QtcIsOld` reports not-stale with no error. -/
theorem qtcIsOld_ignores_non_qtpl (entries : List WalkEntry) (fs : FS)
    (h : ∀ e ∈ entries, hasSuffix e.path ".qtpl" = false) :
    QtcIsOld entries fs none = (false, none) :=
  qtcWalk_non_qtpl fs entries h

/-- Witness for the amended C2 theorem at the concrete `.templ` target. -/
theorem qtcIsOld_ignores_non_qtpl_witness :
    QtcIsOld [templEntry] fsTempl none = (false, none) :=
  qtcIsOld_ignores_non_qtpl [templEntry] fsTempl (by decide)

/-- Claim C3 (counterexample to the stated claim): at a concrete input whose
staleness check reports the legacy kind and whose generator executable is
not resolvable (its invocation fails), `GoInstall` fails the target having
run exactly one external command, the generator invocation itself; no
self-installation of the generator from a module reference is attempted. -/
theorem goInstall_no_self_install :
    QtcIsOld tStale.entries tStale.fs none = (true, none) ∧
    GoInstall tStale exNoQtc [] "t" false none =
      { changed := true, err := some InstallErr.qtcFailed,
        trace := [Cmd.runQtc "t"], installed := [] } := by decide

/-- Claim C3 (amended): during install, when the staleness check reports the
stale kind and the generator invocation fails (as it does when the
executable is not resolvable on the execution path), `GoInstall` fails the
target immediately with the generator error, with the generator invocation
as the only external command attempted — no self-installation fallback. -/
theorem goInstall_generator_failure_fatal (t : Target) (ex : ExecEnv)
    (s : List String) (name : String)
    (h1 : QtcIsOld t.entries t.fs none = (true, none))
    (h2 : ex.qtcOk = false) :
    GoInstall t ex s name false none =
      { changed := true, err := some InstallErr.qtcFailed,
        trace := [Cmd.runQtc name], installed := s } := by
  unfold GoInstall
  rw [h1]
  simp [h2]

/-- Witness for the amended C3 theorem at the concrete stale target. -/
theorem goInstall_generator_failure_fatal_witness :
    GoInstall tStale exNoQtc ["other"] "u" false none =
      { changed := true, err := some InstallErr.qtcFailed,
        trace := [Cmd.runQtc "u"], installed := ["other"] } :=
  goInstall_generator_failure_fatal tStale exNoQtc ["other"] "u" (by decide) rfl

/-- Claim C4: on a traversal with no WalkDir errors and no `di.Info()` stat
failures and no cancellation, the staleness check reports staleness exactly
when some regular `.qtpl` entry is strictly newer than its companion
`path + ".go"`; and with the force flag set, the generator is invoked by
`GoInstall` even when no entry is stale (times equal or older). -/
theorem qtc_staleness_iff_and_force (t : Target) (ex : ExecEnv)
    (s : List String) (name : String)
    (hclean : ∀ e ∈ t.entries, e.walkErr = false ∧ e.info.isSome = true) :
    (QtcIsOld t.entries t.fs none).1 = t.entries.any (entryStale t.fs) ∧
    Cmd.runQtc name ∈ (GoInstall t ex s name true none).trace := by
  have hq : QtcIsOld t.entries t.fs none = (t.entries.any (entryStale t.fs), none) :=
    qtcWalk_clean t.fs t.entries hclean
  constructor
  · rw [hq]
  · by_cases h2 : ex.qtcOk = true
    · have hg : GoInstall t ex s name true none =
          goInstallStep t ex s name true none [Cmd.runQtc name] := by
        unfold GoInstall
        rw [hq]
        simp [h2]
      rw [hg]
      exact mem_trace_goInstallStep t ex s name true none [Cmd.runQtc name]
        (Cmd.runQtc name) (by simp)
    · have hg : GoInstall t ex s name true none =
          { changed := true, err := some InstallErr.qtcFailed,
            trace := [Cmd.runQtc name], installed := s } := by
        unfold GoInstall
        rw [hq]
        simp [h2]
      rw [hg]
      simp

/-- Witness for C4 at a target whose only `.qtpl` source is older than its
generated output (not stale), with force set. -/
theorem qtc_staleness_iff_and_force_witness :
    (QtcIsOld tFresh.entries tFresh.fs none).1
        = tFresh.entries.any (entryStale tFresh.fs) ∧
    Cmd.runQtc "t" ∈ (GoInstall tFresh exOk [] "t" true none).trace :=
  qtc_staleness_iff_and_force tFresh exOk [] "t" (by decide)

/-- Claim C5: whenever the staleness check reports staleness or returns an
error, `GoShouldBuild` returns true, before looking at any artifact,
manifest or source timestamp. -/
theorem goShouldBuild_true_of_stale (t : Target) (name : String)
    (cancelAt : Option Nat)
    (h : (QtcIsOld t.entries t.fs cancelAt).1 = true ∨
         (QtcIsOld t.entries t.fs cancelAt).2 ≠ none) :
    GoShouldBuild t name cancelAt = true := by
  rcases hq : QtcIsOld t.entries t.fs cancelAt with ⟨old, err⟩
  unfold GoShouldBuild
  rw [hq]
  rcases err with _ | e
  · rw [hq] at h
    rcases h with h1 | h1
    · simp only at h1
      simp [h1]
    · simp at h1
  · simp

/-- Witness for C5 at the concrete stale target. -/
theorem goShouldBuild_true_of_stale_witness :
    GoShouldBuild tStale "t" none = true :=
  goShouldBuild_true_of_stale tStale "t" none (Or.inl (by decide))

/-- Claim C6: with no generator staleness and no installed artifact at the
artifact path, `GoShouldBuild` returns true exactly for a command
(executable) target; a library target yields false. -/
theorem goShouldBuild_no_artifact (t : Target) (name : String)
    (cancelAt : Option Nat)
    (h1 : QtcIsOld t.entries t.fs cancelAt = (false, none))
    (h2 : MTime t.fs [pathJoin t.goBin name] = 0) :
    GoShouldBuild t name cancelAt = t.isCommand := by
  unfold GoShouldBuild
  rw [h1]
  cases hc : t.isCommand <;> simp [h2, hc]

/-- Witness for C6 at a command target with no artifact. -/
theorem goShouldBuild_no_artifact_witness :
    GoShouldBuild tCmd "t" none = tCmd.isCommand :=
  goShouldBuild_no_artifact tCmd "t" none (by decide) (by decide)

/-- Claim C7: if the cancellation signal fires at any callback invocation
the traversal would still perform, `QtcIsOld` aborts the walk and returns
the (non-nil) cancellation error — distinct from the clean not-stale result
`(false, none)`. -/
theorem qtcIsOld_cancellation (entries : List WalkEntry) (fs : FS) (k : Nat)
    (h : k < visitCount fs entries false) :
    (QtcIsOld entries fs (some k)).2 = some WalkError.cancelled :=
  qtcWalk_cancelled fs entries k false h

/-- Witness for C7: cancellation at the first visited entry. -/
theorem qtcIsOld_cancellation_witness :
    (QtcIsOld tFresh.entries tFresh.fs (some 0)).2 = some WalkError.cancelled :=
  qtcIsOld_cancellation tFresh.entries tFresh.fs 0 (by decide)

/-- Claim C8 (counterexample to the stated claim): with exactly one existing
path, dated 1 ms before the Unix epoch (modification time -1), `MTime`
returns the sentinel 0 rather than the file's modification time: the
accumulator starts at 0, which is not older than every real timestamp. -/
theorem mtime_pre_epoch_counterexample :
    fsNeg.stat "a" = some (-1) ∧
    fsNeg.stat "missing" = none ∧
    MTime fsNeg ["missing", "a"] = 0 ∧
    ((-1 : Int) ≠ 0) := by decide

/-- Claim C8 (amended): `MTime` skips paths that cannot be stat'ed; it
returns the sentinel 0 when no path exists, and when exactly one path exists
with a non-negative modification time T it returns T no matter how many
nonexistent paths are also passed. -/
theorem mtime_amended (fs : FS) (paths : List String) :
    ((∀ q ∈ paths, fs.stat q = none) → MTime fs paths = 0) ∧
    (∀ p T, p ∈ paths → 0 ≤ T → fs.stat p = some T →
      (∀ q ∈ paths, q ≠ p → fs.stat q = none) → MTime fs paths = T) := by
  constructor
  · intro h
    unfold MTime
    exact foldl_mtimeStep_missing fs paths 0 h
  · intro p T hp hT hstat hothers
    unfold MTime
    rw [foldl_mtimeStep_single fs p T hT hstat paths 0 (Or.inl rfl) hothers]
    simp [hp]

/-- Witness for the amended C8 theorem. -/
theorem mtime_amended_witness :
    MTime fsPos ["x", "y"] = 0 ∧ MTime fsPos ["x", "b", "y"] = 7 :=
  ⟨(mtime_amended fsPos ["x", "y"]).1 (by decide),
   (mtime_amended fsPos ["x", "b", "y"]).2 "b" 7 (by decide) (by decide)
     (by decide) (by decide)⟩

/-- Claim C9: the install-state registry obeys set semantics and is add-only
within a run: resetting empties it, and a recorded name remains a member
across any sequence of registry operations that contains no reset. -/
theorem registry_set_semantics (s : List String) (x : String)
    (ops : List RegistryOp) :
    Installed (applyOp s RegistryOp.reset) = [] ∧
    (RegistryOp.reset ∉ ops →
      x ∈ Installed (applyOps (applyOp s (RegistryOp.record x)) ops)) := by
  constructor
  · rfl
  · intro hops
    have hmem : x ∈ applyOp s (RegistryOp.record x) := by
      show x ∈ insertName s x
      unfold insertName
      by_cases hx : x ∈ s
      · simp [hx]
      · simp [hx]
    exact mem_applyOps x ops _ hmem hops

/-- Witness for C9 at concrete registry states. -/
theorem registry_set_semantics_witness :
    Installed (applyOp ["a"] RegistryOp.reset) = [] ∧
    "b" ∈ Installed (applyOps (applyOp ["a"] (RegistryOp.record "b"))
      [RegistryOp.record "c"]) :=
  ⟨(registry_set_semantics ["a"] "b" [RegistryOp.record "c"]).1,
   (registry_set_semantics ["a"] "b" [RegistryOp.record "c"]).2 (by decide)⟩

/-- Claim C10: whenever `GoInstall` returns a non-nil error, the changed
flag it returns is true — including for a failure inside the staleness
check, before any subprocess has run. -/
theorem goInstall_error_implies_changed (t : Target) (ex : ExecEnv)
    (s : List String) (name : String) (force : Bool) (cancelAt : Option Nat)
    (h : (GoInstall t ex s name force cancelAt).err ≠ none) :
    (GoInstall t ex s name force cancelAt).changed = true := by
  rcases goInstall_changed_or_no_err t ex s name force cancelAt with hc | he
  · exact hc
  · exact absurd he h

/-- Witness for C10: a stat failure inside the staleness check (no
subprocess ran, the trace is empty) still yields changed = true. -/
theorem goInstall_error_implies_changed_witness :
    (GoInstall tStatErr exOk [] "t" false none).changed = true :=
  goInstall_error_implies_changed tStatErr exOk [] "t" false none (by decide)

end Yb
